import Mathlib

/-!
Shallow embedding of `src/main.py` (Amazon lead filter bot) and verification of
the frozen claims about it.

Python strings are modelled as Lean `String`s (lists of characters); character
classes follow Python's `str` methods restricted to ASCII, the only range the
bot's regexes and data can produce.  Python `float`s are modelled as exact
rationals (`ℚ`), `round(x, 2)` as decimal round-half-even, and `None` as
`Option`.  Network calls (Keepa, OCR) are modelled by passing their results in
as explicit oracle functions.
-/

namespace LeadBot

/-- ASCII decimal digit, model of Python `str.isdigit` per character. -/
def pyIsDigitChar (c : Char) : Bool := 48 ≤ c.toNat && c.toNat ≤ 57

/-- ASCII uppercase letter. -/
def pyIsUpperAlpha (c : Char) : Bool := 65 ≤ c.toNat && c.toNat ≤ 90

/-- ASCII lowercase letter. -/
def pyIsLowerAlpha (c : Char) : Bool := 97 ≤ c.toNat && c.toNat ≤ 122

/-- ASCII letter, model of Python `str.isalpha` per character. -/
def pyIsAlphaChar (c : Char) : Bool := pyIsUpperAlpha c || pyIsLowerAlpha c

/-- ASCII letter or digit, model of Python `str.isalnum` per character
and of the regex class `[A-Z0-9]` under `re.IGNORECASE`. -/
def pyIsAlnumChar (c : Char) : Bool := pyIsAlphaChar c || pyIsDigitChar c

/-- Model of Python `str.upper` on a single character (ASCII). -/
def pyToUpperChar (c : Char) : Char :=
  if pyIsLowerAlpha c then Char.ofNat (c.toNat - 32) else c

/-- Model of Python `str.lower` on a single character (ASCII). -/
def pyToLowerChar (c : Char) : Char :=
  if pyIsUpperAlpha c then Char.ofNat (c.toNat + 32) else c

/-- Model of Python `str.upper`. -/
def pyUpper (s : String) : String := ⟨s.data.map pyToUpperChar⟩

/-- Model of Python `str.lower`. -/
def pyLower (s : String) : String := ⟨s.data.map pyToLowerChar⟩

/-- Model of Python `str.isspace` per character (also the regex class `\s`).
The listed code points are Python's whitespace set; note that U+200B
(zero width space) is NOT whitespace in Python. -/
def pyIsSpaceChar (c : Char) : Bool :=
  c.toNat ∈ [9, 10, 11, 12, 13, 28, 29, 30, 31, 32, 133, 160, 5760,
    8192, 8193, 8194, 8195, 8196, 8197, 8198, 8199, 8200, 8201, 8202,
    8232, 8233, 8239, 8287, 12288]

/-- Model of the regex word class `\w` (ASCII): used for `\b` boundaries. -/
def reWordChar (c : Char) : Bool := pyIsAlnumChar c || c == '_'

/-- First-some choice on options, the shape of Python `a if a is not None else b`
chains used to state rule-ordering theorems. -/
def optOr {α : Type} : Option α → Option α → Option α
  | some a, _ => some a
  | none, b => b

/-- Python truthiness of a string: nonempty. -/
def strTruthy (s : String) : Bool := !s.data.isEmpty

/-- Python truthiness of an optional string: not `None` and nonempty. -/
def optStrTruthy (o : Option String) : Bool :=
  match o with
  | some s => strTruthy s
  | none => false

/-- Python truthiness of an optional number: not `None` and nonzero. -/
def optRatTruthy (o : Option ℚ) : Bool :=
  match o with
  | some q => q != 0
  | none => false

/-- Model of Python `str.startswith` (kernel-reducible, unlike byte-based
`String.startsWith`). -/
def pyStartsWith (s p : String) : Bool := p.data.isPrefixOf s.data

/-- Model of Python `str.endswith`. -/
def pyEndsWith (s p : String) : Bool := p.data.isSuffixOf s.data

/-- Deny-list of common words that match the bare-token ASIN regex,
from `INVALID_ASIN_WORDS` in `src/main.py`. -/
def INVALID_ASIN_WORDS : List String :=
  ["ATTACHMENT", "DOWNLOAD", "REGISTER", "SUBSCRIPT", "VALIDATIO",
   "AUTHORIZE", "DOCUMENT", "TEMPORARY", "PERMANENT", "AVAILABLE",
   "UNAVAILAB", "PURCHASED", "COMPLETED", "CANCELLED", "RECEIVED",
   "DELIVERED", "SHIPPING", "PROCESSED", "ACTIVATED", "DISABLED"]

/-- Model of `is_valid_asin` (src/main.py lines 122-133): length 10, uppercase
form not in the deny-list, and the uppercase form has a letter and a digit. -/
def is_valid_asin (asin : String) : Bool :=
  if asin.data.isEmpty || asin.length != 10 then false
  else
    let asin_upper := pyUpper asin
    if INVALID_ASIN_WORDS.contains asin_upper then false
    else
      let has_letter := asin_upper.data.any pyIsAlphaChar
      let has_digit := asin_upper.data.any pyIsDigitChar
      has_letter && has_digit

/-- Model of `normalize_asin` (src/main.py line 135-136): strip
non-alphanumeric characters, then uppercase. -/
def normalize_asin (s : String) : String := pyUpper ⟨s.data.filter pyIsAlnumChar⟩

/-- Round-half-even to an integer, the rounding Python's builtin `round`
performs (floats are modelled as exact rationals). -/
def pyRoundHalfEven (q : ℚ) : ℤ :=
  let f : ℤ := ⌊q⌋
  if q - f < 1/2 then f
  else if 1/2 < q - f then f + 1
  else if 2 ∣ f then f else f + 1

/-- Model of Python `round(x, 2)`. -/
def round2 (q : ℚ) : ℚ := (pyRoundHalfEven (q * 100) : ℚ) / 100

/-- Model of `compute_profit_roi` (src/main.py lines 292-297). -/
def compute_profit_roi (buy sell : Option ℚ) : Option ℚ × Option ℚ :=
  match buy, sell with
  | some b, some s =>
    let profit := round2 (s - b)
    (some profit, if 0 < b then some (round2 (profit / b * 100)) else none)
  | _, _ => (none, none)

/-- Runtime configuration: the module globals `MIN_PROFIT`, `MIN_ROI`,
`ALLOW_UNKNOWN_ELIG`, `DEFAULT_BUY` of src/main.py (mutable via slash
commands, hence passed explicitly). -/
structure Config where
  minProfit : ℚ
  minRoi : ℚ
  allowUnknownElig : Bool
  defaultBuy : ℚ
deriving DecidableEq

/-- Model of `decide` (src/main.py lines 641-656): the ordered rule cascade.
The Python early returns are rendered as a first-match chain. -/
def decide (cfg : Config) (eligibility : Option String) (profit roi : Option ℚ)
    (ip_pl : Bool) : Bool × String :=
  if ip_pl then (false, "Blocked (IP/Private Label)")
  else
    let eligGate : Option (Bool × String) :=
      if optStrTruthy eligibility then
        let s := pyLower (eligibility.getD (""))
        if pyStartsWith s ("n") then some (false, "Eligibility: No")
        else if pyStartsWith s ("u") && !cfg.allowUnknownElig then
          some (false, "Eligibility unknown (disabled)")
        else none
      else
        if !cfg.allowUnknownElig then some (false, "Eligibility missing (disabled)")
        else none
    match eligGate with
    | some v => v
    | none =>
      match profit with
      | none => (false, "Profit missing")
      | some p =>
        if p < cfg.minProfit then (false, "Profit < min")
        else
          match roi with
          | none => (false, "ROI missing")
          | some r => if r < cfg.minRoi then (false, "ROI < min") else (true, "Approved")

/-- The eligibility rules (2 and 3 of the cascade) let the input through:
used to state which inputs reach the profit/ROI rules. -/
def eligPasses (cfg : Config) (eligibility : Option String) : Bool :=
  if optStrTruthy eligibility then
    let s := pyLower (eligibility.getD (""))
    !pyStartsWith s ("n") && (!pyStartsWith s ("u") || cfg.allowUnknownElig)
  else cfg.allowUnknownElig

/-- Python `sell is None or sell <= 0` (src/main.py line 722). -/
def sellMissing (sell : Option ℚ) : Bool :=
  match sell with
  | none => true
  | some s => s ≤ 0

/-- Outcome of the post-extraction part of `handle_lead_message`. -/
structure FinalLead where
  buy : Option ℚ
  sell : Option ℚ
  profit : Option ℚ
  roi : Option ℚ
  ok : Bool
  reason : String
deriving DecidableEq

/-- Model of `handle_lead_message` lines 721-746: substitute the Keepa sell
price when the message has none, substitute `DEFAULT_BUY` when positive and the
message has no buy price, compute profit/ROI, and decide.  `keepa_sell` is the
price component of the product fetch. -/
def finalizeLead (cfg : Config) (buy sell roi : Option ℚ) (elig : Option String)
    (ip_pl : Bool) (keepa_sell : Option ℚ) : FinalLead :=
  let sell1 := if sellMissing sell then (if optRatTruthy keepa_sell then keepa_sell else sell) else sell
  let buy1 := match buy with
    | none => if 0 < cfg.defaultBuy then some cfg.defaultBuy else none
    | some b => some b
  let pr := compute_profit_roi buy1 sell1
  let roi1 := match roi with
    | none => pr.2
    | some r => some r
  let v := decide cfg elig pr.1 roi1 ip_pl
  ⟨buy1, sell1, pr.1, roi1, v.1, v.2⟩

/-- Keepa market (domain) ids in the fixed priority order of `all_domains`
in `parse_domain_candidates` (src/main.py line 162). -/
def all_domains : List Nat := [2, 3, 1, 4, 7, 8, 15, 6, 5, 9, 10, 12, 11]

/-- The `mapping` dict of `parse_domain_candidates` (src/main.py lines 145-159)
as an association list (its keys are distinct). -/
def domain_mapping : List (String × Nat) :=
  [("US", 1), ("COM", 1), ("UK", 2), ("GB", 2), ("CO.UK", 2), ("DE", 3),
   ("GERMANY", 3), ("FR", 4), ("FRANCE", 4), ("JP", 5), ("CO.JP", 5),
   ("JAPAN", 5), ("CA", 6), ("CANADA", 6), ("IT", 7), ("ITALY", 7),
   ("ES", 8), ("SPAIN", 8), ("IN", 9), ("INDIA", 9), ("MX", 10),
   ("MEXICO", 10), ("BR", 11), ("BRAZIL", 11), ("AU", 12), ("AUSTRALIA", 12),
   ("NL", 15), ("NETHERLANDS", 15)]

/-- Model of Python `str.isdigit` on a whole string (ASCII): nonempty and all
decimal digits. -/
def pyIsDigitStr (s : String) : Bool := !s.data.isEmpty && s.data.all pyIsDigitChar

/-- The preferred-market resolution inside `parse_domain_candidates`
(src/main.py lines 167-177): a numeric string parses as a market id, any other
string is looked up (uppercased) in the name mapping; either is kept only when
it is a known market. -/
def preferredDomain (raw : String) : Option Nat :=
  if pyIsDigitStr raw then
    match raw.toNat? with
    | some n => if all_domains.contains n then some n else none
    | none => none
  else
    match domain_mapping.lookup (pyUpper raw) with
    | some n => if all_domains.contains n then some n else none
    | none => none

/-- Model of `parse_domain_candidates` (src/main.py lines 144-188). -/
def parse_domain_candidates (raw : String) : List Nat :=
  let cands0 : List Nat :=
    match preferredDomain raw with
    | some n => [n]
    | none => []
  let cands1 := if cands0.isEmpty then [2] else cands0
  all_domains.foldl (fun acc d => if acc.contains d then acc else acc ++ [d]) cands1

/-- Result of one `fetch_once` call inside `keepa_fetch` (the network part,
passed in as an oracle).  Python's `brand`/`title` are strings where the empty
string means absent; `used` is the domain echoed back on a parsed response and
`none` on an error/timeout path. -/
structure FetchOnce where
  price : Option ℚ
  brand : String
  title : String
  used : Option Nat
deriving DecidableEq

/-- Aggregate result of `keepa_fetch` (diagnostic string omitted: the spec
marks it informational only). -/
structure KeepaResult where
  price : Option ℚ
  brand : Option String
  title : Option String
  domain : Option Nat
deriving DecidableEq

/-- Python `a or b` where `a` is an optional string and `b` a string. -/
def pyOrStr (a : Option String) (b : String) : String :=
  if optStrTruthy a then a.getD ("") else b

/-- The market loop of `keepa_fetch` (src/main.py lines 503-525), with
`fetch_once` abstracted as `oracle`.  State arguments are `best_brand`,
`best_title`, `best_domain_info`. -/
def keepaLoop (oracle : Nat → FetchOnce) :
    Option String → Option String → Option Nat → List Nat → KeepaResult
  | bB, bT, bD, [] =>
    if optStrTruthy bB || optStrTruthy bT then ⟨none, bB, bT, bD⟩
    else ⟨none, none, none, none⟩
  | bB, bT, bD, d :: rest =>
    let r := oracle d
    match r.price with
    | some p =>
      let bB' := if strTruthy r.brand && !optStrTruthy bB then some r.brand else bB
      let bT' := if strTruthy r.title && !optStrTruthy bT then some r.title else bT
      ⟨some p, some (pyOrStr bB' r.brand), some (pyOrStr bT' r.title), r.used⟩
    | none =>
      if (strTruthy r.brand || strTruthy r.title) && bD.isNone then
        keepaLoop oracle (if strTruthy r.brand then some r.brand else bB)
          (if strTruthy r.title then some r.title else bT) r.used rest
      else keepaLoop oracle bB bT bD rest

/-- Model of `keepa_fetch` over a given market try-order. -/
def keepa_fetch (oracle : Nat → FetchOnce) (domains : List Nat) : KeepaResult :=
  keepaLoop oracle none none none domains

/-- A domain result carries brand or title metadata (Python
`brand or title` truthiness). -/
def fetchHasMeta (oracle : Nat → FetchOnce) (d : Nat) : Bool :=
  strTruthy (oracle d).brand || strTruthy (oracle d).title

/-- The tuple of fields `extract_from_text` returns (src/main.py line 290). -/
structure Extracted where
  asin : Option String
  buy : Option ℚ
  sell : Option ℚ
  roi : Option ℚ
  elig : Option String
  ip_pl : Bool
deriving DecidableEq

/-- The OCR-fallback trigger of `handle_lead_message` (src/main.py line 680):
buy, sell or ROI missing, or no valid ASIN. -/
def ocrTrigger (e : Extracted) : Bool :=
  e.buy.isNone || e.sell.isNone || e.roi.isNone || !optStrTruthy e.asin

/-- The merge of OCR-derived fields into the text-derived ones
(src/main.py lines 684-689). -/
def ocrMerge (e e2 : Extracted) : Extracted :=
  { asin := if optStrTruthy e.asin then e.asin else e2.asin
    buy := if e.buy.isNone then e2.buy else e.buy
    sell := if e.sell.isNone then e2.sell else e.sell
    roi := if e.roi.isNone then e2.roi else e.roi
    elig := if !optStrTruthy e.elig then e2.elig else e.elig
    ip_pl := e.ip_pl || e2.ip_pl }

/-- The OCR-fallback step of `handle_lead_message` (src/main.py lines 679-689):
run only when the trigger fires, merge only when the OCR service returned
nonempty text.  `extractOcr` stands for `extract_from_text` applied to the
returned text. -/
def ocrStep (e : Extracted) (ocrText : String) (extractOcr : String → Extracted) :
    Extracted :=
  if ocrTrigger e then
    (if strTruthy ocrText then ocrMerge e (extractOcr ocrText) else e)
  else e

/-- One Discord embed, flattened to the fields src/main.py reads.  Nested
Python optionals (`e.author and e.author.name`) are flattened to one optional
string. -/
structure EmbedPart where
  title : Option String
  authorName : Option String
  description : Option String
  fields : List (String × String)
  footerText : Option String
  url : Option String
  imageUrl : Option String
  thumbnailUrl : Option String

/-- One Discord attachment, the fields src/main.py reads. -/
structure Attachment where
  filename : String
  contentType : Option String
  url : String

/-- A Discord message, the fields src/main.py reads. -/
structure Message where
  content : String
  embeds : List EmbedPart
  attachments : List Attachment

/-- Image extensions of the filename fallback in `ocr_try_extract_from_images`
(src/main.py line 355). -/
def imageExts : List String := [".png", ".jpg", ".jpeg", ".webp", ".bmp", ".gif"]

/-- Image URLs one embed contributes (src/main.py lines 347-349). -/
def embedImageUrls (e : EmbedPart) : List String :=
  (if optStrTruthy e.imageUrl then [e.imageUrl.getD ("")] else []) ++
  (if optStrTruthy e.thumbnailUrl then [e.thumbnailUrl.getD ("")] else [])

/-- Image URLs one attachment contributes (src/main.py lines 350-356). -/
def attachmentImageUrls (a : Attachment) : List String :=
  if optStrTruthy a.contentType && pyStartsWith (a.contentType.getD ("")) ("image/") then
    [a.url]
  else if imageExts.any (fun ext => pyEndsWith (pyLower a.filename) ext) then [a.url]
  else []

/-- All candidate image URLs of a message, in collection order
(src/main.py lines 346-356). -/
def ocrImageUrls (m : Message) : List String :=
  (m.embeds.map embedImageUrls).flatten ++ (m.attachments.map attachmentImageUrls).flatten

/-- The URLs actually submitted to the OCR service: `urls[:3]`
(src/main.py line 366). -/
def ocrSubmittedUrls (m : Message) : List String := (ocrImageUrls m).take 3

/-- Model of Python `str.strip()` (no arguments): drop leading and trailing
whitespace. -/
def pyStrip (s : String) : String :=
  ⟨((s.data.dropWhile pyIsSpaceChar).reverse.dropWhile pyIsSpaceChar).reverse⟩

/-- The bullet characters normalized by `message_to_plaintext`
(src/main.py line 336). -/
def bulletFix (c : Char) : Char :=
  if c ∈ ['•', '·', '▪', '▶'] then '-' else c

/-- Model of `re.sub` over the bullet class (src/main.py line 336). -/
def bulletNormalize (s : String) : String := ⟨s.data.map bulletFix⟩

/-- The zero-width space character U+200B. -/
def zeroWidthChar : Char := Char.ofNat 8203

/-- Model of `re.sub` removing U+200B (src/main.py line 337). -/
def zeroWidthStrip (s : String) : String :=
  ⟨s.data.filter (fun c => c != zeroWidthChar)⟩

/-- Python `"\n".flatten`. -/
def joinWithNewline : List String → String
  | [] => ""
  | [p] => p
  | p :: rest => p ++ ("\n") ++ joinWithNewline rest

/-- The text-normalization transformation of `message_to_plaintext`
(src/main.py lines 335-338): join the fragments that are nonempty and not
whitespace-only, normalize bullets, strip zero-width characters. -/
def normalizeFragments (parts : List String) : String :=
  zeroWidthStrip (bulletNormalize (joinWithNewline
    (parts.filter (fun p => strTruthy p && strTruthy (pyStrip p)))))

/-- The transformation applied to a single text blob (re-normalization). -/
def normalizeText (t : String) : String := normalizeFragments [t]

/-- Fragments one embed field contributes (src/main.py lines 317-321). -/
def embedFieldFragment (p : String × String) : List String :=
  let nm := pyStrip p.1
  let vl := pyStrip p.2
  if strTruthy nm || strTruthy vl then
    [if strTruthy nm then nm ++ ("\n") ++ vl else vl]
  else []

/-- Fragments one embed contributes (src/main.py lines 310-329). -/
def embedFragments (e : EmbedPart) : List String :=
  (if optStrTruthy e.title then [e.title.getD ("")] else []) ++
  (if optStrTruthy e.authorName then [("By: ") ++ e.authorName.getD ("")] else []) ++
  (if optStrTruthy e.description then [e.description.getD ("")] else []) ++
  (e.fields.map embedFieldFragment).flatten ++
  (if optStrTruthy e.footerText then [e.footerText.getD ("")] else []) ++
  (if optStrTruthy e.url then [e.url.getD ("")] else []) ++
  (if optStrTruthy e.imageUrl then [("[image] ") ++ e.imageUrl.getD ("")] else []) ++
  (if optStrTruthy e.thumbnailUrl then [("[image] ") ++ e.thumbnailUrl.getD ("")] else [])

/-- Model of `message_to_plaintext` (src/main.py lines 300-338). -/
def message_to_plaintext (m : Message) : String :=
  normalizeFragments
    ((if strTruthy m.content then [m.content] else []) ++
     (m.embeds.map embedFragments).flatten ++
     m.attachments.map (fun a => ("[attachment] ") ++ a.filename))

/-- Modelled from the spec: the Dedup Tracker (spec sections 4.6 and 8) has no
code in `src/main.py` (it belongs to the second variant implementation the
spec mentions), so `shouldNotify` is modelled from the spec's words: return
true and record `now` as last-seen iff no prior entry exists for the
`(scopeID, productID)` key or `now - lastSeen ≥ windowHours * 3600` seconds;
otherwise return false and leave the map unmodified. -/
def shouldNotify (lastSeen : Nat × String → Option ℤ) (scopeID : Nat)
    (productID : String) (windowHours now : ℤ) :
    Bool × (Nat × String → Option ℤ) :=
  let record : Nat × String → Option ℤ :=
    fun k => if k = (scopeID, productID) then some now else lastSeen k
  match lastSeen (scopeID, productID) with
  | none => (true, record)
  | some t => if windowHours * 3600 ≤ now - t then (true, record) else (false, lastSeen)

/-- A `\b` boundary holds before the current position: start of text or a
non-word previous character. -/
def boundaryBefore (prev : Option Char) : Bool :=
  match prev with
  | none => true
  | some c => !reWordChar c

/-- A `\b` boundary holds after a word character when the remaining text is
empty or starts with a non-word character. -/
def boundaryAfterOk (l : List Char) : Bool :=
  match l with
  | [] => true
  | c :: _ => !reWordChar c

/-- Scanner for `ASIN_RE.findall` (pattern `\b([A-Z0-9]{10})\b`, IGNORECASE):
at every position with a word boundary before it, a run of exactly 10
alphanumeric characters followed by a boundary is a match.  Python's findall
is non-overlapping, but any match here spans a maximal alphanumeric run, so no
two matches can overlap and the one-character-step scan returns exactly the
findall list. -/
def asinScan : Option Char → List Char → List String
  | _, [] => []
  | prev, c :: rest =>
    let tok := (c :: rest).take 10
    let after := (c :: rest).drop 10
    if boundaryBefore prev && (tok.length == 10) && tok.all pyIsAlnumChar &&
        boundaryAfterOk after then
      (⟨tok⟩ : String) :: asinScan (some c) rest
    else asinScan (some c) rest

/-- Model of `ASIN_RE.findall(txt)` (src/main.py lines 104, 224). -/
def asin_findall (txt : String) : List String := asinScan none txt.data

/-- Generic leftmost regex search: try a match at every position from the
left, tracking the previous character for `\b`. -/
def searchGo {α : Type} (tryAt : Option Char → List Char → Option α) :
    Option Char → List Char → Option α
  | _, [] => none
  | prev, c :: rest =>
    match tryAt prev (c :: rest) with
    | some a => some a
    | none => searchGo tryAt (some c) rest

/-- Case-insensitive literal prefix match; the pattern is given lowercase. -/
def ciPrefixMatch : List Char → List Char → Bool
  | [], _ => true
  | _ :: _, [] => false
  | p :: ps, c :: cs => (p == pyToLowerChar c) && ciPrefixMatch ps cs

/-- The host alternation of `AMAZON_URL_RE` (src/main.py line 107), in the
pattern's alternation order. -/
def amazonDomains : List String :=
  ["com", "co.uk", "de", "fr", "it", "es", "ca", "co.jp", "in",
   "com.mx", "com.br", "com.au", "nl"]

/-- Try `/dp/`, `/gp/product/` or `/product/` followed by a 10-character
alphanumeric capture at the current position (tail of `AMAZON_URL_RE`). -/
def urlLitTry (lit : String) (l : List Char) : Option (List Char) :=
  if ciPrefixMatch lit.data l then
    let after := l.drop lit.length
    let cap := after.take 10
    if (cap.length == 10) && cap.all pyIsAlnumChar then some cap else none
  else none

/-- Alternation `(?:dp|gp/product|product)` with its leading and trailing
slashes and the capture, tried in the pattern's order. -/
def urlPathTry (l : List Char) : Option (List Char) :=
  optOr (urlLitTry ("/dp/") l)
    (optOr (urlLitTry ("/gp/product/") l) (urlLitTry ("/product/") l))

/-- The lazy `.*?` of `AMAZON_URL_RE`: find the shortest extension (not
crossing a newline, since `.` does not match `\n`) after which the path
alternation matches. -/
def urlLazyScan : List Char → Option (List Char)
  | [] => none
  | c :: rest =>
    match urlPathTry (c :: rest) with
    | some cap => some cap
    | none => if c == '\n' then none else urlLazyScan rest

/-- After the host alternation the pattern requires one `/` and then the lazy
scan. -/
def urlAfterDomain : List Char → Option (List Char)
  | '/' :: rest => urlLazyScan rest
  | _ => none

/-- Backtracking over the host alternation: try each alternative in order,
requiring the rest of the pattern to match after it. -/
def domainTry : List String → List Char → Option (List Char)
  | [], _ => none
  | d :: ds, l =>
    if ciPrefixMatch d.data l then
      match urlAfterDomain (l.drop d.length) with
      | some cap => some cap
      | none => domainTry ds l
    else domainTry ds l

/-- Try the whole `AMAZON_URL_RE` at the current position. -/
def amazonTryAt (_prev : Option Char) (l : List Char) : Option (List Char) :=
  if ciPrefixMatch ("amazon.").data l then domainTry amazonDomains (l.drop 7)
  else none

/-- Model of `AMAZON_URL_RE.search(txt)` returning the captured group
(src/main.py lines 107, 236). -/
def amazon_url_asin (txt : String) : Option String :=
  (searchGo amazonTryAt none txt.data).map (fun l => (⟨l⟩ : String))

/-- The separator class `[:\s-]` of the ASIN label patterns. -/
def sepClass (c : Char) : Bool := (c == ':') || pyIsSpaceChar c || (c == '-')

/-- Try `ASIN_LABEL_RE` (`\bASIN[:\s-]*([A-Z0-9]{10})\b`, IGNORECASE) at the
current position.  The greedy `[:\s-]*` cannot backtrack usefully: shrinking
it would put a separator character where the alphanumeric capture starts. -/
def labelTryAt (prev : Option Char) (l : List Char) : Option (List Char) :=
  if boundaryBefore prev && ciPrefixMatch ("asin").data l then
    let afterSep := (l.drop 4).dropWhile sepClass
    let cap := afterSep.take 10
    if (cap.length == 10) && cap.all pyIsAlnumChar &&
        boundaryAfterOk (afterSep.drop 10) then some cap
    else none
  else none

/-- Model of `ASIN_LABEL_RE.search(txt)` returning the captured group. -/
def asin_label_asin (txt : String) : Option String :=
  (searchGo labelTryAt none txt.data).map (fun l => (⟨l⟩ : String))

/-- The group class `[A-Z0-9\-\s]` of `ASIN_LABEL_FLEX_RE`. -/
def flexGroupClass (c : Char) : Bool :=
  pyIsAlnumChar c || (c == '-') || pyIsSpaceChar c

/-- Whether the remaining text starts with a word character (for a `\b` after
a character that may itself be a non-word separator). -/
def headIsWordChar (l : List Char) : Bool :=
  match l with
  | [] => false
  | c :: _ => reWordChar c

/-- Try `f n`, `f (n-1)`, ..., `f 0` and return the first `some`: the
backtracking order of a greedy counted repetition. -/
def firstSomeDesc {α : Type} (f : Nat → Option α) : Nat → Option α
  | 0 => f 0
  | n + 1 =>
    match f (n + 1) with
    | some a => some a
    | none => firstSomeDesc f n

/-- The greedy `([A-Z0-9\-\s]{10,})\b` of `ASIN_LABEL_FLEX_RE` starting at
`start`: longest group first, then backtrack down to 10 until the boundary
after the group holds. -/
def flexGroupTry (start : List Char) : Option (List Char) :=
  let gMax := (start.takeWhile flexGroupClass).length
  if gMax < 10 then none
  else
    firstSomeDesc (fun k =>
      let j := 10 + k
      let grp := start.take j
      match grp.getLast? with
      | some x =>
        if (reWordChar x) != headIsWordChar (start.drop j) then some grp else none
      | none => none) (gMax - 10)

/-- Try `ASIN_LABEL_FLEX_RE` (`\bASIN[:\s-]*([A-Z0-9\-\s]{10,})\b`) at the
current position: the greedy separator star is backtracked from longest to
empty, and for each split the group repetition from longest down to 10. -/
def labelFlexTryAt (prev : Option Char) (l : List Char) : Option (List Char) :=
  if boundaryBefore prev && ciPrefixMatch ("asin").data l then
    let rest := l.drop 4
    let sMax := (rest.takeWhile sepClass).length
    firstSomeDesc (fun i => flexGroupTry (rest.drop i)) sMax
  else none

/-- Model of `ASIN_LABEL_FLEX_RE.search(txt)` returning the captured group. -/
def asin_label_flex_group (txt : String) : Option String :=
  (searchGo labelFlexTryAt none txt.data).map (fun l => (⟨l⟩ : String))

/-- Try `B0_ASIN_RE` (`\b(B0[A-Z0-9]{8})\b`, IGNORECASE) at the current
position. -/
def b0TryAt (prev : Option Char) (l : List Char) : Option (List Char) :=
  match l with
  | c :: c0 :: rest =>
    if boundaryBefore prev && (pyToLowerChar c == 'b') && (c0 == '0') then
      let cap := rest.take 8
      if (cap.length == 8) && cap.all pyIsAlnumChar && boundaryAfterOk (rest.drop 8)
      then some (c :: c0 :: cap)
      else none
    else none
  | _ => none

/-- Model of `B0_ASIN_RE.search(txt)` returning the captured group. -/
def b0_asin (txt : String) : Option String :=
  (searchGo b0TryAt none txt.data).map (fun l => (⟨l⟩ : String))

/-- The class `[\s\-A-Z0-9]` of `B0_ASIN_FLEX_RE`. -/
def b0FlexClass (c : Char) : Bool :=
  pyIsSpaceChar c || (c == '-') || pyIsAlnumChar c

/-- Try `B0_ASIN_FLEX_RE` (`\bB\s*0[\s\-A-Z0-9]{8}\b`, IGNORECASE) at the
current position; the whole match (group 0) is returned.  `\s*` is greedy but
disjoint from the following `0`, so it is deterministic. -/
def b0FlexTryAt (prev : Option Char) (l : List Char) : Option (List Char) :=
  match l with
  | c :: rest =>
    if boundaryBefore prev && (pyToLowerChar c == 'b') then
      let ws := rest.takeWhile pyIsSpaceChar
      match rest.dropWhile pyIsSpaceChar with
      | z :: rest3 =>
        if z == '0' then
          let cap := rest3.take 8
          match cap.getLast? with
          | some x =>
            if (cap.length == 8) && cap.all b0FlexClass &&
                ((reWordChar x) != headIsWordChar (rest3.drop 8)) then
              some (c :: ws ++ z :: cap)
            else none
          | none => none
        else none
      | [] => none
    else none
  | [] => none

/-- Model of `B0_ASIN_FLEX_RE.search(txt)` returning the whole match. -/
def b0_flex_group (txt : String) : Option String :=
  (searchGo b0FlexTryAt none txt.data).map (fun l => (⟨l⟩ : String))

/-- The ASIN-resolution slice of `extract_from_text` (src/main.py lines
221-273), with the Python control flow kept: first the bare-token scan taking
the first valid candidate, then an Amazon-URL hit overriding it when valid,
then — only when both produced nothing — the exact label, flexible label, B0
token and flexible B0 token rules. -/
def extract_asin_from_text (txt : String) : Option String :=
  let a0 : Option String := ((asin_findall txt).map pyUpper).find? is_valid_asin
  let a1 : Option String :=
    match amazon_url_asin txt with
    | some g => if is_valid_asin (pyUpper g) then some (pyUpper g) else a0
    | none => a0
  let a2 : Option String :=
    match a1 with
    | some _ => a1
    | none =>
      match asin_label_asin txt with
      | some g => if is_valid_asin (pyUpper g) then some (pyUpper g) else none
      | none => none
  let a3 : Option String :=
    match a2 with
    | some _ => a2
    | none =>
      match asin_label_flex_group txt with
      | some g =>
        let cand := normalize_asin g
        if (cand.length == 10) && is_valid_asin cand then some cand else none
      | none => none
  let a4 : Option String :=
    match a3 with
    | some _ => a3
    | none =>
      match b0_asin txt with
      | some g => if is_valid_asin (pyUpper g) then some (pyUpper g) else none
      | none => none
  let a5 : Option String :=
    match a4 with
    | some _ => a4
    | none =>
      match b0_flex_group txt with
      | some g =>
        let cand := normalize_asin g
        if (cand.length == 10) && is_valid_asin cand then some cand else none
      | none => none
  a5

/-- The validated Amazon-URL candidate (rule: URL identifier). -/
def urlCand (txt : String) : Option String :=
  (amazon_url_asin txt).bind
    (fun g => if is_valid_asin (pyUpper g) then some (pyUpper g) else none)

/-- The first valid candidate of the bare 10-character token scan. -/
def bareCand (txt : String) : Option String :=
  ((asin_findall txt).map pyUpper).find? is_valid_asin

/-- The validated exact-label candidate. -/
def labelCand (txt : String) : Option String :=
  (asin_label_asin txt).bind
    (fun g => if is_valid_asin (pyUpper g) then some (pyUpper g) else none)

/-- The validated flexible-label candidate (normalized, must come back to
exactly 10 characters). -/
def labelFlexCand (txt : String) : Option String :=
  (asin_label_flex_group txt).bind
    (fun g =>
      let cand := normalize_asin g
      if (cand.length == 10) && is_valid_asin cand then some cand else none)

/-- The validated B0-prefixed candidate. -/
def b0Cand (txt : String) : Option String :=
  (b0_asin txt).bind
    (fun g => if is_valid_asin (pyUpper g) then some (pyUpper g) else none)

/-- The validated flexible B0 candidate. -/
def b0FlexCand (txt : String) : Option String :=
  (b0_flex_group txt).bind
    (fun g =>
      let cand := normalize_asin g
      if (cand.length == 10) && is_valid_asin cand then some cand else none)

theorem toNat_ofNat_lt {n : Nat} (h : n < 55296) : (Char.ofNat n).toNat = n := by
  rw [Char.ofNat, dif_pos (Or.inl h)]
  rfl

theorem pyToUpperChar_alpha {c : Char} (h : pyIsAlphaChar c = true) :
    pyIsAlphaChar (pyToUpperChar c) = true := by
  unfold pyToUpperChar
  by_cases hl : pyIsLowerAlpha c = true
  · rw [if_pos hl]
    have hl' : 97 ≤ c.toNat ∧ c.toNat ≤ 122 := by
      simpa [pyIsLowerAlpha] using hl
    have hv : c.toNat - 32 < 55296 := by omega
    simp only [pyIsAlphaChar, pyIsUpperAlpha, pyIsLowerAlpha, Bool.or_eq_true,
      Bool.and_eq_true, decide_eq_true_eq, toNat_ofNat_lt hv]
    omega
  · rw [if_neg hl]
    exact h

theorem pyToUpperChar_digit {c : Char} (h : pyIsDigitChar c = true) :
    pyToUpperChar c = c := by
  have h' : 48 ≤ c.toNat ∧ c.toNat ≤ 57 := by
    simpa [pyIsDigitChar] using h
  unfold pyToUpperChar
  rw [if_neg]
  simp only [pyIsLowerAlpha, Bool.and_eq_true, decide_eq_true_eq]
  omega

/-- C1 (counterexample): the claim's false-direction fails on the
alphanumeric-character-class check: `is_valid_asin` accepts the 10-character
string A1!!!!!!!! although it is not alphanumeric — the code never checks the
character class (its callers only pass regex-matched alphanumeric tokens). -/
theorem C1_counterexample :
    is_valid_asin ("A1!!!!!!!!") = true ∧
    ("A1!!!!!!!!").data.all pyIsAlnumChar = false := by
  constructor
  · decide
  · decide

/-- C1 (amended): every 10-character alphanumeric string with at least one
letter, at least one digit and whose uppercase form is not in the deny-list is
accepted by `is_valid_asin`; every string of length other than 10, every
string whose uppercase form is in the deny-list, and every string whose
uppercase form lacks a letter or a digit is rejected.  (The
alphanumeric-character-class check of the original claim's false-direction
does not exist in the code.) -/
theorem C1_amended :
    (∀ s : String, s.length = 10 → s.data.all pyIsAlnumChar = true →
      s.data.any pyIsAlphaChar = true → s.data.any pyIsDigitChar = true →
      INVALID_ASIN_WORDS.contains (pyUpper s) = false →
      is_valid_asin s = true) ∧
    (∀ s : String, s.length ≠ 10 → is_valid_asin s = false) ∧
    (∀ s : String, INVALID_ASIN_WORDS.contains (pyUpper s) = true →
      is_valid_asin s = false) ∧
    (∀ s : String, (pyUpper s).data.any pyIsAlphaChar = false ∨
      (pyUpper s).data.any pyIsDigitChar = false →
      is_valid_asin s = false) := by
  refine ⟨?_, ?_, ?_, ?_⟩
  · rintro ⟨l⟩ hlen _ hA hD hdeny
    unfold is_valid_asin
    have hlen' : l.length = 10 := hlen
    have hne : l.isEmpty = false := by
      cases l with
      | nil => simp at hlen'
      | cons a t => rfl
    rw [if_neg (by simp [hne, String.length, hlen'])]
    have hup : pyUpper ⟨l⟩ = ⟨l.map pyToUpperChar⟩ := rfl
    rw [if_neg (by rw [hdeny]; exact Bool.false_ne_true)]
    simp only [Bool.and_eq_true]
    constructor
    · simp only [hup, List.any_map, List.any_eq_true] at *
      obtain ⟨c, hc, hca⟩ := hA
      exact ⟨c, hc, pyToUpperChar_alpha hca⟩
    · simp only [hup, List.any_map, List.any_eq_true] at *
      obtain ⟨c, hc, hcd⟩ := hD
      refine ⟨c, hc, ?_⟩
      simp only [Function.comp_apply, pyToUpperChar_digit hcd]
      exact hcd
  · rintro ⟨l⟩ hlen
    unfold is_valid_asin
    rw [if_pos]
    simp only [Bool.or_eq_true, bne_iff_ne, ne_eq]
    right
    exact hlen
  · rintro ⟨l⟩ hdeny
    unfold is_valid_asin
    by_cases hsz : (List.isEmpty l || (String.length ⟨l⟩ != 10)) = true
    · rw [if_pos hsz]
    · rw [if_neg hsz, if_pos hdeny]
  · rintro ⟨l⟩ hmiss
    unfold is_valid_asin
    by_cases hsz : (List.isEmpty l || (String.length ⟨l⟩ != 10)) = true
    · rw [if_pos hsz]
    · rw [if_neg hsz]
      by_cases hdeny : INVALID_ASIN_WORDS.contains (pyUpper ⟨l⟩) = true
      · rw [if_pos hdeny]
      · rw [if_neg hdeny]
        simp only [Bool.and_eq_true]
        rcases hmiss with hm | hm
        · simp [hm]
        · simp [hm]

/-- C1 (witness): the amended theorem applied at concrete inputs. -/
theorem C1_witness :
    (("B0ABCD1234" : String).length = 10 ∧ is_valid_asin ("B0ABCD1234") = true) ∧
    (("SHORT" : String).length ≠ 10 ∧ is_valid_asin ("SHORT") = false) ∧
    (INVALID_ASIN_WORDS.contains (pyUpper ("ATTACHMENT")) = true ∧
      is_valid_asin ("ATTACHMENT") = false) ∧
    is_valid_asin ("ABCDEFGHIJ") = false :=
  ⟨⟨by decide, C1_amended.1 ("B0ABCD1234") (by decide) (by decide) (by decide)
      (by decide) (by decide)⟩,
   ⟨by decide, C1_amended.2.1 ("SHORT") (by decide)⟩,
   ⟨by decide, C1_amended.2.2.1 ("ATTACHMENT") (by decide)⟩,
   C1_amended.2.2.2 ("ABCDEFGHIJ") (Or.inr (by decide))⟩

/-- C5: `compute_profit_roi` returns (None, None) when either input is
missing; otherwise profit = round(sell - buy, 2) and roi =
round(profit / buy * 100, 2) when buy > 0, None when buy ≤ 0; in particular
(10, 15) ↦ (5, 50), (0, 15) ↦ (15, None), (None, 15) ↦ (None, None). -/
theorem C5_compute_profit_roi :
    (∀ s : Option ℚ, compute_profit_roi none s = (none, none)) ∧
    (∀ b : Option ℚ, compute_profit_roi b none = (none, none)) ∧
    (∀ b s : ℚ, compute_profit_roi (some b) (some s) =
      (some (round2 (s - b)),
        if 0 < b then some (round2 (round2 (s - b) / b * 100)) else none)) ∧
    compute_profit_roi (some 10) (some 15) = (some 5, some 50) ∧
    compute_profit_roi (some 0) (some 15) = (some 15, none) := by
  refine ⟨?_, ?_, ?_, ?_, ?_⟩
  · rintro (_ | s) <;> rfl
  · rintro (_ | b) <;> rfl
  · intro b s
    rfl
  · norm_num [compute_profit_roi, round2, pyRoundHalfEven]
  · norm_num [compute_profit_roi, round2, pyRoundHalfEven]

/-- Helper: when the eligibility rules pass and the block signal is absent,
`decide` reduces to the profit/ROI cascade. -/
theorem decideGateOpen (cfg : Config) (elig : Option String) (profit roi : Option ℚ)
    (h : eligPasses cfg elig = true) :
    decide cfg elig profit roi false =
      (match profit with
       | none => (false, "Profit missing")
       | some p =>
         if p < cfg.minProfit then (false, "Profit < min")
         else match roi with
           | none => (false, "ROI missing")
           | some r => if r < cfg.minRoi then (false, "ROI < min")
             else (true, "Approved")) := by
  rcases elig with _ | s
  · rcases hA : cfg.allowUnknownElig
    · simp [eligPasses, optStrTruthy, hA] at h
    · simp [decide, optStrTruthy, hA]
  · rcases ht : strTruthy s
    · rcases hA : cfg.allowUnknownElig
      · simp [eligPasses, optStrTruthy, ht, hA] at h
      · simp [decide, optStrTruthy, ht, hA]
    · rcases hn : pyStartsWith (pyLower s) ("n")
      · rcases hu : pyStartsWith (pyLower s) ("u")
        · simp [decide, optStrTruthy, ht, hn, hu]
        · rcases hA : cfg.allowUnknownElig
          · simp [eligPasses, optStrTruthy, ht, hn, hu, hA] at h
          · simp [decide, optStrTruthy, ht, hn, hu, hA]
      · simp [eligPasses, optStrTruthy, ht, hn] at h

/-- C2: `decide` evaluates block-signal, eligibility-No,
eligibility-unknown/missing (when unknown eligibility is not allowed), profit
threshold, ROI threshold, approve — in this order, short-circuiting at the
first failing rule; in particular any input with the block-signal flag is
rejected with the block reason regardless of all other fields. -/
theorem C2_decide_cascade :
    (∀ (cfg : Config) (elig : Option String) (profit roi : Option ℚ),
      decide cfg elig profit roi true = (false, "Blocked (IP/Private Label)")) ∧
    (∀ (cfg : Config) (s : String) (profit roi : Option ℚ),
      strTruthy s = true → pyStartsWith (pyLower s) ("n") = true →
      decide cfg (some s) profit roi false = (false, "Eligibility: No")) ∧
    (∀ (cfg : Config) (s : String) (profit roi : Option ℚ),
      strTruthy s = true → pyStartsWith (pyLower s) ("n") = false →
      pyStartsWith (pyLower s) ("u") = true → cfg.allowUnknownElig = false →
      decide cfg (some s) profit roi false = (false, "Eligibility unknown (disabled)")) ∧
    (∀ (cfg : Config) (elig : Option String) (profit roi : Option ℚ),
      optStrTruthy elig = false → cfg.allowUnknownElig = false →
      decide cfg elig profit roi false = (false, "Eligibility missing (disabled)")) ∧
    (∀ (cfg : Config) (elig : Option String) (roi : Option ℚ),
      eligPasses cfg elig = true →
      decide cfg elig none roi false = (false, "Profit missing")) ∧
    (∀ (cfg : Config) (elig : Option String) (p : ℚ) (roi : Option ℚ),
      eligPasses cfg elig = true → p < cfg.minProfit →
      decide cfg elig (some p) roi false = (false, "Profit < min")) ∧
    (∀ (cfg : Config) (elig : Option String) (p : ℚ),
      eligPasses cfg elig = true → cfg.minProfit ≤ p →
      decide cfg elig (some p) none false = (false, "ROI missing")) ∧
    (∀ (cfg : Config) (elig : Option String) (p r : ℚ),
      eligPasses cfg elig = true → cfg.minProfit ≤ p → r < cfg.minRoi →
      decide cfg elig (some p) (some r) false = (false, "ROI < min")) ∧
    (∀ (cfg : Config) (elig : Option String) (p r : ℚ),
      eligPasses cfg elig = true → cfg.minProfit ≤ p → cfg.minRoi ≤ r →
      decide cfg elig (some p) (some r) false = (true, "Approved")) := by
  refine ⟨?_, ?_, ?_, ?_, ?_, ?_, ?_, ?_, ?_⟩
  · intro cfg elig profit roi
    simp [decide]
  · intro cfg s profit roi ht hn
    simp [decide, optStrTruthy, ht, hn]
  · intro cfg s profit roi ht hn hu ha
    simp [decide, optStrTruthy, ht, hn, hu, ha]
  · intro cfg elig profit roi ht ha
    rcases elig with _ | s
    · simp [decide, optStrTruthy, ha]
    · simp only [optStrTruthy] at ht
      simp [decide, optStrTruthy, ht, ha]
  · intro cfg elig roi h
    rw [decideGateOpen cfg elig none roi h]
  · intro cfg elig p roi h hp
    rw [decideGateOpen cfg elig (some p) roi h]
    simp [hp]
  · intro cfg elig p h hp
    rw [decideGateOpen cfg elig (some p) none h]
    simp [not_lt.mpr hp]
  · intro cfg elig p r h hp hr
    rw [decideGateOpen cfg elig (some p) (some r) h]
    simp [not_lt.mpr hp, hr]
  · intro cfg elig p r h hp hr
    rw [decideGateOpen cfg elig (some p) (some r) h]
    simp [not_lt.mpr hp, not_lt.mpr hr]

/-- A concrete configuration (the .env defaults) for witnesses. -/
def cfgW : Config := ⟨5, 8, false, 0⟩

/-- C2 (witness): the cascade theorem applied at concrete inputs. -/
theorem C2_witness :
    decide cfgW (some ("Yes")) (some 10) (some 50) true =
      (false, "Blocked (IP/Private Label)") ∧
    decide cfgW (some ("No")) (some 10) (some 50) false = (false, "Eligibility: No") ∧
    decide cfgW (some ("Yes")) none (some 50) false = (false, "Profit missing") ∧
    decide cfgW (some ("Yes")) (some 10) (some 50) false = (true, "Approved") :=
  ⟨C2_decide_cascade.1 cfgW (some ("Yes")) (some 10) (some 50),
   C2_decide_cascade.2.1 cfgW ("No") (some 10) (some 50) (by decide) (by decide),
   C2_decide_cascade.2.2.2.2.1 cfgW (some ("Yes")) (some 50) (by decide),
   C2_decide_cascade.2.2.2.2.2.2.2.2 cfgW (some ("Yes")) 10 50 (by decide)
     (by norm_num [cfgW]) (by norm_num [cfgW])⟩

/-- C3: `shouldNotify` (modelled from the spec, see its definition) returns
true iff no prior entry exists or now - lastSeen ≥ windowHours * 3600, records
now as last-seen exactly when it returns true and leaves the map unmodified
otherwise; with a 1-hour window a call at t=0 returns true, the same call at
t=1800 s returns false (entry unmodified), and at t=3601 s returns true. -/
theorem C3_shouldNotify :
    (∀ (lastSeen : Nat × String → Option ℤ) (scope : Nat) (pid : String) (w now : ℤ),
      ((shouldNotify lastSeen scope pid w now).1 = true ↔
        (lastSeen (scope, pid) = none ∨
         ∃ t, lastSeen (scope, pid) = some t ∧ w * 3600 ≤ now - t)) ∧
      (shouldNotify lastSeen scope pid w now).2 =
        (if (shouldNotify lastSeen scope pid w now).1 then
          (fun k => if k = (scope, pid) then some now else lastSeen k)
         else lastSeen)) ∧
    ((shouldNotify (fun _ => none) 1 ("ABC1234567") 1 0).1 = true ∧
     (shouldNotify (shouldNotify (fun _ => none) 1 ("ABC1234567") 1 0).2
        1 ("ABC1234567") 1 1800).1 = false ∧
     (shouldNotify (shouldNotify (fun _ => none) 1 ("ABC1234567") 1 0).2
        1 ("ABC1234567") 1 1800).2 =
       (shouldNotify (fun _ => none) 1 ("ABC1234567") 1 0).2 ∧
     (shouldNotify (shouldNotify (fun _ => none) 1 ("ABC1234567") 1 0).2
        1 ("ABC1234567") 1 3601).1 = true) := by
  constructor
  · intro lastSeen scope pid w now
    constructor
    · unfold shouldNotify
      rcases h : lastSeen (scope, pid) with _ | t
      · simp
      · by_cases hw : w * 3600 ≤ now - t
        · simp [hw]
        · simp [hw]
    · unfold shouldNotify
      rcases h : lastSeen (scope, pid) with _ | t
      · simp
      · by_cases hw : w * 3600 ≤ now - t
        · simp [hw]
        · simp [hw]
  · exact ⟨rfl, rfl, rfl, rfl⟩

/-- Helper: the `keepa_fetch` market loop returns the price of the first
market whose lookup produced a price, regardless of accumulated metadata. -/
theorem keepaLoopPrice (oracle : Nat → FetchOnce) :
    ∀ (doms : List Nat) (bB bT : Option String) (bD : Option Nat),
      (keepaLoop oracle bB bT bD doms).price =
        (doms.find? (fun d => (oracle d).price.isSome)).bind
          (fun d => (oracle d).price) := by
  intro doms
  induction doms with
  | nil =>
    intro bB bT bD
    by_cases hm : (optStrTruthy bB || optStrTruthy bT) = true
    · simp [keepaLoop, hm]
    · simp [keepaLoop, hm]
  | cons d rest ih =>
    intro bB bT bD
    rcases hp : (oracle d).price with _ | p
    · simp only [keepaLoop, hp]
      rw [List.find?]
      simp only [hp, Option.isSome_none]
      by_cases hm : ((strTruthy (oracle d).brand || strTruthy (oracle d).title) && bD.isNone) = true
      · rw [if_pos hm]
        exact ih _ _ _
      · rw [if_neg hm]
        exact ih _ _ _
    · simp only [keepaLoop, hp]
      rw [List.find?]
      simp [hp]

/-- Helper: once metadata is locked in (`best_domain_info` set), further
price-less markets change nothing. -/
theorem keepaLoopLocked (oracle : Nat → FetchOnce) :
    ∀ (doms : List Nat) (bB bT : Option String) (x : Nat),
      (∀ d ∈ doms, (oracle d).price = none) →
      (optStrTruthy bB || optStrTruthy bT) = true →
      keepaLoop oracle bB bT (some x) doms = ⟨none, bB, bT, some x⟩ := by
  intro doms
  induction doms with
  | nil =>
    intro bB bT x _ hm
    simp [keepaLoop, hm]
  | cons d rest ih =>
    intro bB bT x h hm
    have hd := h d (by simp)
    simp only [keepaLoop, hd]
    rw [if_neg (by simp)]
    exact ih bB bT x (fun d' hd' => h d' (by simp [hd'])) hm

/-- Helper: when no market returns a price, `keepa_fetch` returns the first
brand/title metadata found (or nothing at all), provided metadata only comes
from parsed responses that echo their domain. -/
theorem keepaFetchNoPriceAux (oracle : Nat → FetchOnce) :
    ∀ (doms : List Nat),
      (∀ d ∈ doms, (oracle d).price = none) →
      (∀ d ∈ doms, fetchHasMeta oracle d = true → (oracle d).used = some d) →
      keepa_fetch oracle doms =
        (match doms.find? (fetchHasMeta oracle) with
         | some d =>
           ⟨none,
            (if strTruthy (oracle d).brand then some (oracle d).brand else none),
            (if strTruthy (oracle d).title then some (oracle d).title else none),
            some d⟩
         | none => ⟨none, none, none, none⟩) := by
  intro doms
  induction doms with
  | nil =>
    intro _ _
    simp [keepa_fetch, keepaLoop]
  | cons d rest ih =>
    intro hp hw
    have hd := hp d (by simp)
    unfold keepa_fetch
    simp only [keepaLoop, hd]
    by_cases hm : fetchHasMeta oracle d = true
    · have hu := hw d (by simp) hm
      rw [List.find?]
      simp only [hm]
      unfold fetchHasMeta at hm
      rw [if_pos (by simp [hm]), hu]
      have hstate :
          (optStrTruthy (if strTruthy (oracle d).brand then some (oracle d).brand else none) ||
           optStrTruthy (if strTruthy (oracle d).title then some (oracle d).title else none)) = true := by
        rcases Bool.or_eq_true_iff.mp hm with hb | ht
        · rw [if_pos hb]
          simp [optStrTruthy, hb]
        · rw [if_pos ht]
          rcases hbb : strTruthy (oracle d).brand
          · simp [optStrTruthy, ht]
          · simp [optStrTruthy, ht]
      rw [keepaLoopLocked oracle rest _ _ d (fun d' hd' => hp d' (by simp [hd'])) hstate]
    · rw [List.find?]
      simp only [hm]
      unfold fetchHasMeta at hm
      rw [if_neg (by simp [hm])]
      exact ih (fun d' hd' => hp d' (by simp [hd'])) (fun d' hd' => hw d' (by simp [hd']))

/-- Helper: the deduplicating append loop of `parse_domain_candidates`. -/
theorem foldlDedupAppend :
    ∀ (l acc : List Nat), l.Nodup →
      l.foldl (fun acc d => if acc.contains d then acc else acc ++ [d]) acc =
        acc ++ l.filter (fun d => !acc.contains d) := by
  intro l
  induction l with
  | nil =>
    intro acc _
    simp
  | cons a t ih =>
    intro acc hnd
    rcases List.nodup_cons.mp hnd with ⟨ha, ht⟩
    rw [List.foldl_cons, List.filter_cons]
    by_cases hc : acc.contains a = true
    · rw [if_pos hc, ih acc ht, hc]
      simp
    · rw [if_neg hc, ih (acc ++ [a]) ht]
      have hfc : List.filter (fun d => !(acc ++ [a]).contains d) t =
          List.filter (fun d => !acc.contains d) t := by
        apply List.filter_congr
        intro d hd
        have hda : d ≠ a := fun e => ha (e ▸ hd)
        simp [hda]
      rw [hfc, List.append_assoc, List.singleton_append]
      have hb : acc.contains a = false := by
        cases hcc : acc.contains a
        · rfl
        · exact absurd hcc hc
      rw [hb]
      simp

/-- Helper: a parsed preferred market is always a known market. -/
theorem preferredDomainKnown (raw : String) :
    ∀ n, preferredDomain raw = some n → n ∈ all_domains := by
  intro n h
  unfold preferredDomain at h
  by_cases hd : pyIsDigitStr raw = true
  · simp only [hd, if_true] at h
    rcases ht : raw.toNat? with _ | m
    · simp [ht] at h
    · simp only [ht] at h
      by_cases hc : all_domains.contains m = true
      · simp only [hc, if_true] at h
        cases h
        exact List.elem_iff.mp hc
      · simp [hc] at h
        exact h.2 ▸ h.1
  · simp only [hd, if_false, Bool.false_eq_true] at h
    rcases ht : domain_mapping.lookup (pyUpper raw) with _ | m
    · simp [ht] at h
    · simp only [ht] at h
      by_cases hc : all_domains.contains m = true
      · simp only [hc, if_true] at h
        cases h
        exact List.elem_iff.mp hc
      · simp [hc] at h
        exact h.2 ▸ h.1

/-- Helper: closed form of `parse_domain_candidates` — the preferred market
(default UK = 2) first, then the remaining known markets in priority order. -/
theorem parseClosedForm (raw : String) :
    parse_domain_candidates raw =
      (preferredDomain raw).getD 2 ::
        all_domains.filter (fun d => d ≠ (preferredDomain raw).getD 2) := by
  unfold parse_domain_candidates
  rcases h : preferredDomain raw with _ | n
  · simp only [h, Option.getD_none]
    rw [show (if (List.isEmpty ([] : List Nat)) = true then [2] else ([] : List Nat)) = [2] from rfl]
    rw [foldlDedupAppend all_domains [2] (by decide), List.singleton_append]
    congr 1
  · simp only [h, Option.getD_some]
    rw [show (if (List.isEmpty [n]) = true then [2] else [n]) = [n] from rfl]
    rw [foldlDedupAppend all_domains [n] (by decide), List.singleton_append]
    congr 1
    apply List.filter_congr
    intro d _
    by_cases hdn : d = n
    · simp [hdn]
    · simp [hdn]

/-- Helper: the market try-order is a permutation of the known markets, so
each market appears exactly once. -/
theorem parsePerm (raw : String) : (parse_domain_candidates raw).Perm all_domains := by
  rw [parseClosedForm]
  have hm : (preferredDomain raw).getD 2 ∈ all_domains := by
    rcases hp : preferredDomain raw with _ | n
    · simp only [hp, Option.getD_none]
      decide
    · simp only [hp, Option.getD_some]
      exact preferredDomainKnown raw n hp
  have hf : all_domains.filter (fun d => d ≠ (preferredDomain raw).getD 2) =
      all_domains.erase ((preferredDomain raw).getD 2) := by
    rw [List.Nodup.erase_eq_filter (by decide)]
    apply List.filter_congr
    intro d _
    by_cases hd : d = (preferredDomain raw).getD 2
    · simp [hd]
    · simp [hd]
  rw [hf]
  exact (List.perm_cons_erase hm).symm

/-- C7: the market try-order is the configured preferred market first (the
default market 2 when it does not parse), followed by the remaining known
markets in the fixed priority order, each market exactly once; the fetch loop
accepts the first market returning a price; when no market returns a price,
the first brand/title metadata found is retained. -/
theorem C7_market_order_and_fetch :
    (∀ raw : String, parse_domain_candidates raw =
        (preferredDomain raw).getD 2 ::
          all_domains.filter (fun d => d ≠ (preferredDomain raw).getD 2)) ∧
    (∀ raw : String, (parse_domain_candidates raw).Perm all_domains) ∧
    (∀ (oracle : Nat → FetchOnce) (doms : List Nat),
      (keepa_fetch oracle doms).price =
        (doms.find? (fun d => (oracle d).price.isSome)).bind
          (fun d => (oracle d).price)) ∧
    (∀ (oracle : Nat → FetchOnce) (doms : List Nat),
      (∀ d ∈ doms, (oracle d).price = none) →
      (∀ d ∈ doms, fetchHasMeta oracle d = true → (oracle d).used = some d) →
      keepa_fetch oracle doms =
        (match doms.find? (fetchHasMeta oracle) with
         | some d =>
           ⟨none,
            (if strTruthy (oracle d).brand then some (oracle d).brand else none),
            (if strTruthy (oracle d).title then some (oracle d).title else none),
            some d⟩
         | none => ⟨none, none, none, none⟩)) := by
  refine ⟨parseClosedForm, parsePerm, ?_, ?_⟩
  · intro oracle doms
    exact keepaLoopPrice oracle doms none none none
  · intro oracle doms hp hw
    exact keepaFetchNoPriceAux oracle doms hp hw

/-- A concrete price oracle for the C7 witness: no prices anywhere, brand
metadata on market 3 only. -/
def oracleW : Nat → FetchOnce :=
  fun d => if d = 3 then ⟨none, ("BrandX"), (""), some 3⟩ else ⟨none, (""), (""), some d⟩

/-- C7 (witness): the fetch theorem applied to a concrete oracle. -/
theorem C7_witness :
    keepa_fetch oracleW all_domains = ⟨none, some ("BrandX"), none, some 3⟩ := by
  have h := C7_market_order_and_fetch.2.2.2 oracleW all_domains (by decide) (by decide)
  rw [h]
  decide

/-- C6 (counterexample): with cost present, sale absent and no price from
the oracle, a message with no eligibility field under the default
configuration is rejected with the eligibility reason, not a missing
profit/ROI reason — the eligibility rule fires before the profit rule. -/
theorem C6_counterexample :
    finalizeLead ⟨5, 8, false, 0⟩ (some 10) none none none false none =
      ⟨some 10, none, none, none, false, "Eligibility missing (disabled)"⟩ ∧
    ("Eligibility missing (disabled)" : String) ≠ ("Profit missing") ∧
    ("Eligibility missing (disabled)" : String) ≠ ("ROI missing") := by
  refine ⟨?_, by decide, by decide⟩
  decide

/-- C6 (amended): when the oracle yields no price and no metadata on every
market, the fetch returns the all-None result (the model is a total function:
no exception); with cost present and sale absent the pipeline computes no
profit/ROI, and — provided the block signal is absent and the eligibility rule
passes — rejects with reason Profit missing. -/
theorem C6_amended :
    (∀ (oracle : Nat → FetchOnce) (doms : List Nat),
      (∀ d ∈ doms, (oracle d).price = none ∧ fetchHasMeta oracle d = false) →
      keepa_fetch oracle doms = ⟨none, none, none, none⟩) ∧
    (∀ (cfg : Config) (b : ℚ) (elig : Option String),
      eligPasses cfg elig = true →
      finalizeLead cfg (some b) none none elig false none =
        ⟨some b, none, none, none, false, "Profit missing"⟩) := by
  constructor
  · intro oracle doms h
    rw [keepaFetchNoPriceAux oracle doms (fun d hd => (h d hd).1)
      (fun d hd hm => absurd hm (by simp [(h d hd).2]))]
    rw [List.find?_eq_none.mpr (fun d hd => by simp [(h d hd).2])]
  · intro cfg b elig h
    have hd := decideGateOpen cfg elig none none h
    simp [finalizeLead, sellMissing, optRatTruthy, compute_profit_roi, hd]

/-- A concrete price oracle returning no data at all, for the C6 witness. -/
def oracleE : Nat → FetchOnce := fun d => ⟨none, (""), (""), some d⟩

/-- C6 (witness): the amended theorem applied at concrete inputs. -/
theorem C6_witness :
    keepa_fetch oracleE all_domains = ⟨none, none, none, none⟩ ∧
    finalizeLead ⟨5, 8, false, 0⟩ (some 10) none none (some ("Yes")) false none =
      ⟨some 10, none, none, none, false, "Profit missing"⟩ :=
  ⟨C6_amended.1 oracleE all_domains (by decide),
   C6_amended.2 ⟨5, 8, false, 0⟩ 10 (some ("Yes")) (by decide)⟩

/-- C10 (counterexample): with no cost extracted and a non-positive default
buy, a message without an eligibility field is rejected with the eligibility
reason, not the missing-profit reason. -/
theorem C10_counterexample :
    finalizeLead ⟨5, 8, false, 0⟩ none (some 20) none none false none =
      ⟨none, some 20, none, none, false, "Eligibility missing (disabled)"⟩ ∧
    ("Eligibility missing (disabled)" : String) ≠ ("Profit missing") := by
  refine ⟨?_, by decide⟩
  decide

/-- C10 (amended): when no buy price was extracted and the configured
default buy is positive, the pipeline substitutes it as the cost (and a
message carrying no cost information can be approved, shown on a concrete
run); when the default is not positive the cost stays undefined, profit stays
undefined, and — provided the block signal is absent and the eligibility rule
passes — the verdict rejects with reason Profit missing. -/
theorem C10_amended :
    (∀ (cfg : Config) (sell roi : Option ℚ) (elig : Option String) (ip : Bool)
        (ks : Option ℚ),
      0 < cfg.defaultBuy →
      (finalizeLead cfg none sell roi elig ip ks).buy = some cfg.defaultBuy) ∧
    (finalizeLead ⟨5, 8, false, 10⟩ none none none (some ("Yes")) false (some 50) =
      ⟨some 10, some 50, some 40, some 400, true, "Approved"⟩) ∧
    (∀ (cfg : Config) (sell roi : Option ℚ) (elig : Option String) (ks : Option ℚ),
      cfg.defaultBuy ≤ 0 →
      (finalizeLead cfg none sell roi elig false ks).buy = none ∧
      (finalizeLead cfg none sell roi elig false ks).profit = none ∧
      (eligPasses cfg elig = true →
        (finalizeLead cfg none sell roi elig false ks).ok = false ∧
        (finalizeLead cfg none sell roi elig false ks).reason = ("Profit missing"))) := by
  refine ⟨?_, ?_, ?_⟩
  · intro cfg sell roi elig ip ks h
    simp [finalizeLead, if_pos h]
  · have hp : eligPasses ⟨5, 8, false, 10⟩ (some ("Yes")) = true := by decide
    have hc : compute_profit_roi (some 10) (some 50) = (some 40, some 400) := by
      norm_num [compute_profit_roi, round2, pyRoundHalfEven]
    have hd := decideGateOpen ⟨5, 8, false, 10⟩ (some ("Yes")) (some 40) (some 400) hp
    norm_num at hd
    norm_num [finalizeLead, sellMissing, optRatTruthy, hc, hd]
  · intro cfg sell roi elig ks h
    have hb : ¬ (0 < cfg.defaultBuy) := not_lt.mpr h
    refine ⟨?_, ?_, ?_⟩
    · simp [finalizeLead, if_neg hb]
    · simp [finalizeLead, if_neg hb, compute_profit_roi]
    · intro hp
      rcases roi with _ | r
      · have hd := decideGateOpen cfg elig none none hp
        constructor <;> simp [finalizeLead, if_neg hb, compute_profit_roi, hd]
      · have hd := decideGateOpen cfg elig none (some r) hp
        constructor <;> simp [finalizeLead, if_neg hb, compute_profit_roi, hd]

/-- C8: the OCR fallback runs only when productID, cost, sale or ROI are
missing after text extraction; the merge never overwrites a field already set
from message text (productID, cost, sale, ROI, eligibility); and at most the
first 3 collected image URLs are submitted. -/
theorem C8_ocr_frame :
    (∀ (e : Extracted) (ocrText : String) (f : String → Extracted),
      ocrTrigger e = false → ocrStep e ocrText f = e) ∧
    (∀ (e : Extracted) (ocrText : String) (f : String → Extracted),
      (optStrTruthy e.asin = true → (ocrStep e ocrText f).asin = e.asin) ∧
      (e.buy ≠ none → (ocrStep e ocrText f).buy = e.buy) ∧
      (e.sell ≠ none → (ocrStep e ocrText f).sell = e.sell) ∧
      (e.roi ≠ none → (ocrStep e ocrText f).roi = e.roi) ∧
      (optStrTruthy e.elig = true → (ocrStep e ocrText f).elig = e.elig)) ∧
    (∀ m : Message, (ocrSubmittedUrls m).length ≤ 3 ∧
      ∃ rest, ocrImageUrls m = ocrSubmittedUrls m ++ rest) := by
  refine ⟨?_, ?_, ?_⟩
  · intro e ocrText f h
    simp [ocrStep, h]
  · intro e ocrText f
    by_cases h1 : ocrTrigger e = true
    · by_cases h2 : strTruthy ocrText = true
      · refine ⟨?_, ?_, ?_, ?_, ?_⟩ <;> intro h
        · simp [ocrStep, h1, h2, ocrMerge, h]
        · rcases hb : e.buy with _ | b
          · exact absurd hb h
          · simp [ocrStep, h1, h2, ocrMerge, hb]
        · rcases hb : e.sell with _ | b
          · exact absurd hb h
          · simp [ocrStep, h1, h2, ocrMerge, hb]
        · rcases hb : e.roi with _ | b
          · exact absurd hb h
          · simp [ocrStep, h1, h2, ocrMerge, hb]
        · simp [ocrStep, h1, h2, ocrMerge, h]
      · refine ⟨?_, ?_, ?_, ?_, ?_⟩ <;> intro h <;> simp [ocrStep, h1, h2]
    · refine ⟨?_, ?_, ?_, ?_, ?_⟩ <;> intro h <;> simp [ocrStep, h1]
  · intro m
    constructor
    · simp only [ocrSubmittedUrls]
      exact List.length_take_le 3 (ocrImageUrls m)
    · exact ⟨(ocrImageUrls m).drop 3, (List.take_append_drop 3 (ocrImageUrls m)).symm⟩

/-- C8 (witness): the frame theorem applied at concrete inputs. -/
theorem C8_witness :
    ocrStep ⟨some ("B0ABCD1234"), some 1, some 2, some 3, some ("Yes"), false⟩ ("t")
        (fun _ => ⟨some ("X123456789"), some 9, some 9, some 9, some ("No"), true⟩) =
      ⟨some ("B0ABCD1234"), some 1, some 2, some 3, some ("Yes"), false⟩ ∧
    (ocrStep ⟨none, some 1, some 2, some 3, some ("Yes"), false⟩ ("t")
        (fun _ => ⟨some ("X123456789"), some 9, some 9, some 9, some ("No"), true⟩)).buy =
      some 1 :=
  ⟨C8_ocr_frame.1 _ ("t") _ (by decide),
   (C8_ocr_frame.2.1 ⟨none, some 1, some 2, some 3, some ("Yes"), false⟩ ("t")
      (fun _ => ⟨some ("X123456789"), some 9, some 9, some 9, some ("No"), true⟩)).2.1
     (by decide)⟩

/-- Helper: normalizing a bullet character twice equals once. -/
theorem bulletFixIdem (c : Char) : bulletFix (bulletFix c) = bulletFix c := by
  by_cases h : c ∈ ['•', '·', '▪', '▶']
  · have hc : bulletFix c = '-' := by simp [bulletFix, h]
    rw [hc]
    decide
  · have hc : bulletFix c = c := by simp [bulletFix, h]
    rw [hc, hc]

/-- Helper: bullet normalization neither creates nor destroys zero-width
characters. -/
theorem bulletFixNeZw (c : Char) :
    (bulletFix c != zeroWidthChar) = (c != zeroWidthChar) := by
  by_cases h : c ∈ ['•', '·', '▪', '▶']
  · have hc : bulletFix c = '-' := by simp [bulletFix, h]
    rw [hc]
    have hz : c ≠ zeroWidthChar := by
      simp only [List.mem_cons, List.not_mem_nil, or_false] at h
      rcases h with h | h | h | h <;> rw [h] <;> decide
    have h2 : (c != zeroWidthChar) = true := bne_iff_ne.mpr hz
    rw [h2]
    decide
  · have hc : bulletFix c = c := by simp [bulletFix, h]
    rw [hc]

/-- Helper: bullet normalization followed by zero-width stripping is
idempotent at the character-list level. -/
theorem zwBulletIdem (l : List Char) :
    (List.map bulletFix ((List.map bulletFix l).filter
        (fun c => c != zeroWidthChar))).filter (fun c => c != zeroWidthChar) =
      (List.map bulletFix l).filter (fun c => c != zeroWidthChar) := by
  induction l with
  | nil => rfl
  | cons a t ih =>
    simp only [List.map_cons, List.filter_cons]
    by_cases hz : (bulletFix a != zeroWidthChar) = true
    · simp only [hz, if_pos, List.map_cons, List.filter_cons, bulletFixIdem,
        bulletFixNeZw, ih]
    · simp only [hz, if_neg, Bool.false_eq_true, ite_false, ih]

/-- Helper: string truthiness is inequality with the empty string. -/
theorem strTruthyIff (s : String) : strTruthy s = true ↔ s ≠ "" := by
  obtain ⟨l⟩ := s
  cases l <;> simp [strTruthy, String.ext_iff]

/-- C9 (counterexample): normalization is not idempotent on every text: a
text of a space and a zero-width space normalizes to a single space, which
re-normalizes to the empty string. -/
theorem C9_counterexample :
    normalizeText (normalizeText (" \u200B")) ≠ normalizeText (" \u200B") := by
  decide

/-- C9 (amended): re-normalizing yields the same text for every input whose
normalized form is empty or not whitespace-only — i.e. for every input except
texts consisting solely of whitespace plus zero-width characters, whose
nonempty all-whitespace normalized form re-normalizes to the empty string. -/
theorem C9_amended :
    ∀ t : String, (normalizeText t = "" ∨ pyStrip (normalizeText t) ≠ "") →
      normalizeText (normalizeText t) = normalizeText t := by
  intro t h
  rcases h with h0 | h1
  · rw [h0]
    rfl
  · have hu : normalizeText t ≠ "" := by
      intro he
      rw [he] at h1
      exact h1 rfl
    have hkeep : (strTruthy (normalizeText t) &&
        strTruthy (pyStrip (normalizeText t))) = true := by
      rw [(strTruthyIff _).mpr hu, (strTruthyIff _).mpr h1]
      rfl
    show normalizeFragments [normalizeText t] = normalizeText t
    unfold normalizeFragments
    rw [List.filter_cons, if_pos hkeep, List.filter_nil]
    show zeroWidthStrip (bulletNormalize (normalizeText t)) = normalizeText t
    unfold normalizeText normalizeFragments
    apply String.ext
    exact zwBulletIdem (joinWithNewline
      (List.filter (fun p => strTruthy p && strTruthy (pyStrip p)) [t])).data 

/-- C9 (witness): the amended theorem applied at a concrete input. -/
theorem C9_witness :
    (normalizeText ("a-b") = "" ∨ pyStrip (normalizeText ("a-b")) ≠ "") ∧
    normalizeText (normalizeText ("a-b")) = normalizeText ("a-b") :=
  ⟨Or.inr (by decide), C9_amended ("a-b") (Or.inr (by decide))⟩

/-- C4 (counterexample): on a text holding a bare valid token before an
ASIN-labeled token and no URL, extraction returns the bare token, although the
claimed order says the labeled identifier (rule 2) beats the bare-token scan
(rule 5). -/
theorem C4_counterexample :
    extract_asin_from_text ("DEAL2CODE9 ASIN: B0ABCD1234") = some ("DEAL2CODE9") ∧
    labelCand ("DEAL2CODE9 ASIN: B0ABCD1234") = some ("B0ABCD1234") ∧
    amazon_url_asin ("DEAL2CODE9 ASIN: B0ABCD1234") = none ∧
    (some ("DEAL2CODE9") : Option String) ≠ some ("B0ABCD1234") :=
  ⟨by decide, by decide, by decide, by decide⟩

set_option maxHeartbeats 1000000 in
/-- C4 (amended): extraction resolves, in order: the validated identifier of
a recognized Amazon product URL; the first valid bare 10-character token; and
only when both fail, the exact label, flexible label, B0-token and flexible
B0-token rules — each candidate validated and invalid candidates skipped. -/
theorem C4_amended (txt : String) :
    extract_asin_from_text txt =
      optOr (urlCand txt) (optOr (bareCand txt) (optOr (labelCand txt)
        (optOr (labelFlexCand txt) (optOr (b0Cand txt) (b0FlexCand txt))))) := by
  unfold extract_asin_from_text urlCand bareCand labelCand labelFlexCand b0Cand b0FlexCand
  generalize amazon_url_asin txt = u
  generalize ((asin_findall txt).map pyUpper).find? is_valid_asin = b
  generalize asin_label_asin txt = lb
  generalize asin_label_flex_group txt = lf
  generalize b0_asin txt = b0
  generalize b0_flex_group txt = bf
  cases u <;> cases b <;> cases lb <;> cases lf <;> cases b0 <;> cases bf <;>
    simp only [Option.some_bind, Option.none_bind, optOr] <;>
    (try split_ifs) <;> rfl

/-- C10 (witness): the amended theorem applied at concrete inputs. -/
theorem C10_witness :
    (0 : ℚ) < (⟨5, 8, false, 10⟩ : Config).defaultBuy ∧
    (finalizeLead ⟨5, 8, false, 10⟩ none (some 20) none none true none).buy = some 10 ∧
    (⟨5, 8, false, 0⟩ : Config).defaultBuy ≤ 0 ∧
    (finalizeLead ⟨5, 8, false, 0⟩ none (some 20) none (some ("Yes")) false none).ok = false ∧
    (finalizeLead ⟨5, 8, false, 0⟩ none (some 20) none (some ("Yes")) false none).reason =
      ("Profit missing") := by
  refine ⟨by norm_num, ?_, by norm_num, ?_, ?_⟩
  · exact C10_amended.1 ⟨5, 8, false, 10⟩ (some 20) none none true none (by norm_num)
  · exact ((C10_amended.2.2 ⟨5, 8, false, 0⟩ (some 20) none (some ("Yes")) none
      (by norm_num)).2.2 (by decide)).1
  · exact ((C10_amended.2.2 ⟨5, 8, false, 0⟩ (some 20) none (some ("Yes")) none
      (by norm_num)).2.2 (by decide)).2

end LeadBot
